import Mathlib

/-!
# Verification of the gesture-driven string control engine

Shallow embedding of the per-frame pipeline of the "Handpose String Music"
repository: the pinch debouncing, the per-endpoint grab/release state machine
and spring-return easing from `StringCanvas` (`draw`), the control-signal
helpers from `lib/utils.ts`, the parameter mapping from `audioConfig`
(`applyCurve` / `updateAudio`), and the note-gating tick logic of the `Home`
component.  JavaScript numbers are modelled as real numbers, extended by
explicit `NaN` / `Infinity` values (`JSNum`) where the source code branches on
non-finite results.
-/

open scoped Classical

noncomputable section

namespace Music

/-! ## Geometry primitives -/

/-- A 2D point, as the `{x, y}` objects used throughout `StringCanvas`. -/
structure Pt where
  x : ℝ
  y : ℝ
deriving DecidableEq

/-- Source: `distance(a, b) = Math.hypot(a.x - b.x, a.y - b.y)` from `StringCanvas`
(and identically `lib/utils.ts`). -/
def dist (a b : Pt) : ℝ :=
  Real.sqrt ((a.x - b.x) ^ 2 + (a.y - b.y) ^ 2)

/-- Source: `lerp(start, end, factor)` from `StringCanvas`: componentwise
`start + (end - start) * factor`. -/
def lerp (start e : Pt) (factor : ℝ) : Pt :=
  ⟨start.x + (e.x - start.x) * factor, start.y + (e.y - start.y) * factor⟩

/-! ## Constants of `StringCanvas` -/

def GRAB_RADIUS : ℝ := 30
def RELEASE_HYSTERESIS : ℝ := 10
def EASING_FACTOR : ℝ := 0.15
def PINCH_THRESHOLD : ℝ := 50
def PINCH_RELEASE_THRESHOLD : ℝ := 80
def PINCH_DEBOUNCE_TIME : ℝ := 150

/-! ## Basic distance lemmas -/

lemma dist_nonneg' (a b : Pt) : 0 ≤ dist a b :=
  Real.sqrt_nonneg _

lemma dist_self' (a : Pt) : dist a a = 0 := by
  simp [dist]

/-- For points on a common horizontal line the distance is the absolute
x-difference; used to evaluate the embedding on concrete inputs. -/
lemma dist_horiz (x₁ x₂ y : ℝ) : dist ⟨x₁, y⟩ ⟨x₂, y⟩ = |x₁ - x₂| := by
  simp [dist, Real.sqrt_sq_eq_abs]

/-! ## Spring-return easing -/

/-- The easing phase of `draw`: an endpoint that is not grabbed is moved by
`lerp(end, anchor, EASING_FACTOR)`; a grabbed endpoint is left where the
grab logic put it. -/
def easeStep (grabbed : Bool) (p anchor : Pt) : Pt :=
  if grabbed = true then p else lerp p anchor EASING_FACTOR

/-- Iterated easing of an idle endpoint toward a fixed anchor. -/
def easeIter (p anchor : Pt) : ℕ → Pt
  | 0 => p
  | n + 1 => lerp (easeIter p anchor n) anchor EASING_FACTOR

lemma dist_lerp_easing (p a : Pt) :
    dist (lerp p a EASING_FACTOR) a = 0.85 * dist p a := by
  have h1 : (p.x + (a.x - p.x) * EASING_FACTOR - a.x) ^ 2
      + (p.y + (a.y - p.y) * EASING_FACTOR - a.y) ^ 2
      = 0.85 ^ 2 * ((p.x - a.x) ^ 2 + (p.y - a.y) ^ 2) := by
    simp only [EASING_FACTOR]; ring
  have h2 : Real.sqrt (0.85 ^ 2 * ((p.x - a.x) ^ 2 + (p.y - a.y) ^ 2))
      = 0.85 * Real.sqrt ((p.x - a.x) ^ 2 + (p.y - a.y) ^ 2) := by
    rw [Real.sqrt_mul (by positivity)]
    rw [Real.sqrt_sq (by norm_num)]
  simp only [dist, lerp]
  rw [h1, h2]

lemma dist_easeIter (p a : Pt) (n : ℕ) :
    dist (easeIter p a n) a = 0.85 ^ n * dist p a := by
  induction n with
  | zero => simp [easeIter]
  | succ n ih =>
    rw [easeIter, dist_lerp_easing, ih, pow_succ]
    ring

/-- C9: an Idle endpoint is eased toward its anchor each tick
(`position + (anchor - position) * EASING_FACTOR`); its distance to a fixed
anchor is multiplied by `0.85` each tick, hence is non-increasing, never
overshoots, and converges to zero; a grabbed endpoint is never moved by the
easing step. -/
theorem easing_contracts_and_converges (p a : Pt) (n : ℕ) :
    easeStep true p a = p
    ∧ easeStep false p a = lerp p a EASING_FACTOR
    ∧ dist (easeStep false p a) a = 0.85 * dist p a
    ∧ dist (easeIter p a (n + 1)) a ≤ dist (easeIter p a n) a
    ∧ Filter.Tendsto (fun k => dist (easeIter p a k) a) Filter.atTop (nhds 0) := by
  refine ⟨rfl, rfl, ?_, ?_, ?_⟩
  · simp only [easeStep]
    rw [if_neg (by simp)]
    exact dist_lerp_easing p a
  · rw [dist_easeIter, dist_easeIter]
    have hd : 0 ≤ dist p a := dist_nonneg' p a
    have hpow : (0.85 : ℝ) ^ (n + 1) ≤ 0.85 ^ n := by
      rw [pow_succ]
      nlinarith [pow_nonneg (by norm_num : (0:ℝ) ≤ 0.85) n]
    nlinarith
  · have hbase : Filter.Tendsto (fun k => (0.85 : ℝ) ^ k) Filter.atTop (nhds 0) :=
      tendsto_pow_atTop_nhds_zero_of_lt_one (by norm_num) (by norm_num)
    have := hbase.mul_const (dist p a)
    rw [zero_mul] at this
    refine this.congr fun k => ?_
    rw [dist_easeIter]

/-! ## Grab/release state machine (`StringCanvas.draw`) -/

/-- A hand tip as assembled in `draw`: canvas position of the index-finger
tip, the hand id (the array index of the hand), and the effective pinch
boolean after hysteresis and debouncing. -/
structure HandTip where
  x : ℝ
  y : ℝ
  handId : ℕ
  isPinched : Bool

/-- The per-endpoint state produced by one endpoint's grab/release block:
position, `grabbed` flag and controlling hand id. -/
structure EndpointResult where
  pos : Pt
  grabbed : Bool
  hid : Option ℕ

/-- The persistent `stateRef` of `StringCanvas` (endpoint part). -/
structure CanvasState where
  leftEnd : Pt
  rightEnd : Pt
  leftGrabbed : Bool
  rightGrabbed : Bool
  leftHandId : Option ℕ
  rightHandId : Option ℕ

/-- The closest-hand search of `draw`: fold over `handTips` starting from
`minDist = Infinity`, replacing the current best only on a strictly smaller
distance (so the first hand wins ties). Returns the closest tip together
with its distance to `p`, or `none` when no hand is observed. -/
def findClosest (tips : List HandTip) (p : Pt) : Option (HandTip × ℝ) :=
  tips.foldl
    (fun acc tip =>
      let d := dist ⟨tip.x, tip.y⟩ p
      match acc with
      | none => some (tip, d)
      | some (_, d0) => if d < d0 then some (tip, d) else acc)
    none

/-- The presence check preceding the grab blocks: `if (leftHandId !== null &&
!activeHandIds.has(leftHandId)) { leftGrabbed = false; leftHandId = null; }`. -/
def dropMissing (tips : List HandTip) (grabbed : Bool) (hid : Option ℕ) :
    Bool × Option ℕ :=
  match hid with
  | some id => if tips.any (fun t => t.handId == id) then (grabbed, hid) else (false, none)
  | none => (grabbed, none)

/-- One endpoint's grab/release block from `draw`: the closest hand tip is
found; if it is within `GRAB_RADIUS` and pinched the endpoint is (or stays)
grabbed and sticks to that tip; otherwise, a grabbed endpoint is released
when the closest tip is not pinched or farther than
`GRAB_RADIUS + RELEASE_HYSTERESIS`, and else keeps following the closest
tip. When no hand is observed the block is skipped. -/
def processEndpoint (tips : List HandTip) (endPos : Pt) (grabbed : Bool)
    (hid : Option ℕ) : EndpointResult :=
  match findClosest tips endPos with
  | none => ⟨endPos, grabbed, hid⟩
  | some (c, d) =>
    if d ≤ GRAB_RADIUS ∧ c.isPinched = true then
      ⟨⟨c.x, c.y⟩, true, if grabbed = true then hid else some c.handId⟩
    else if grabbed = true then
      if c.isPinched = false ∨ d > GRAB_RADIUS + RELEASE_HYSTERESIS then
        ⟨endPos, false, none⟩
      else
        ⟨⟨c.x, c.y⟩, true, hid⟩
    else
      ⟨endPos, grabbed, hid⟩

/-- The full per-tick treatment of one endpoint: the presence check for the
controlling hand, then the grab/release block. -/
def endpointTick (tips : List HandTip) (endPos : Pt) (grabbed : Bool)
    (hid : Option ℕ) : EndpointResult :=
  let gh := dropMissing tips grabbed hid
  processEndpoint tips endPos gh.1 gh.2

/-- One whole tick of the endpoint state in `draw`: presence checks, the left
endpoint block, the right endpoint block, then the easing phase for each
endpoint that is not grabbed. -/
def stringTick (tips : List HandTip) (s : CanvasState)
    (leftAnchor rightAnchor : Pt) : CanvasState :=
  let l := endpointTick tips s.leftEnd s.leftGrabbed s.leftHandId
  let r := endpointTick tips s.rightEnd s.rightGrabbed s.rightHandId
  { leftEnd := easeStep l.grabbed l.pos leftAnchor
    rightEnd := easeStep r.grabbed r.pos rightAnchor
    leftGrabbed := l.grabbed
    rightGrabbed := r.grabbed
    leftHandId := l.hid
    rightHandId := r.hid }

lemma findClosest_singleton (t : HandTip) (p : Pt) :
    findClosest [t] p = some (t, dist ⟨t.x, t.y⟩ p) := by
  simp [findClosest]

/-- C1 (counterexample): after one tick both endpoints can be controlled by
the same hand. With both endpoints idle at `(100, 100)` and a single pinching
hand with id `0` at the same position, the left block grabs with hand `0` and
the right block (evaluated independently) grabs with hand `0` as well, so
`leftHandId = rightHandId = some 0` simultaneously. -/
theorem one_hand_grabs_both_endpoints_cex :
    (stringTick [⟨100, 100, 0, true⟩]
        ⟨⟨100, 100⟩, ⟨100, 100⟩, false, false, none, none⟩
        ⟨200, 300⟩ ⟨600, 300⟩).leftHandId = some 0
    ∧ (stringTick [⟨100, 100, 0, true⟩]
        ⟨⟨100, 100⟩, ⟨100, 100⟩, false, false, none, none⟩
        ⟨200, 300⟩ ⟨600, 300⟩).rightHandId = some 0 := by
  have hd : dist ⟨(100 : ℝ), (100 : ℝ)⟩ ⟨100, 100⟩ = 0 := dist_self' _
  constructor <;>
    simp [stringTick, endpointTick, dropMissing, processEndpoint,
      findClosest_singleton, hd, GRAB_RADIUS]

/-- C1 (amended): the left and right endpoint blocks are evaluated
independently and no exclusion rule is applied: a single observed pinching
hand within `GRAB_RADIUS` of both idle endpoints becomes the controlling
hand of both endpoints in the same tick. -/
theorem single_hand_controls_both (t : HandTip) (s : CanvasState) (la ra : Pt)
    (hp : t.isPinched = true)
    (hl : dist ⟨t.x, t.y⟩ s.leftEnd ≤ GRAB_RADIUS)
    (hr : dist ⟨t.x, t.y⟩ s.rightEnd ≤ GRAB_RADIUS)
    (hlg : s.leftGrabbed = false) (hrg : s.rightGrabbed = false)
    (hlh : s.leftHandId = none) (hrh : s.rightHandId = none) :
    (stringTick [t] s la ra).leftGrabbed = true
    ∧ (stringTick [t] s la ra).rightGrabbed = true
    ∧ (stringTick [t] s la ra).leftHandId = some t.handId
    ∧ (stringTick [t] s la ra).rightHandId = some t.handId := by
  refine ⟨?_, ?_, ?_, ?_⟩ <;>
    simp [stringTick, endpointTick, dropMissing, processEndpoint,
      findClosest_singleton, hp, hl, hr, hlg, hrg, hlh, hrh]

/-- C1 witness: the amended theorem evaluated on a hand with id `2` at
`(300, 300)`, 10 units from each idle endpoint. -/
theorem single_hand_controls_both_witness :
    (stringTick [⟨300, 300, 2, true⟩]
        ⟨⟨310, 300⟩, ⟨290, 300⟩, false, false, none, none⟩
        ⟨200, 300⟩ ⟨600, 300⟩).leftGrabbed = true
    ∧ (stringTick [⟨300, 300, 2, true⟩]
        ⟨⟨310, 300⟩, ⟨290, 300⟩, false, false, none, none⟩
        ⟨200, 300⟩ ⟨600, 300⟩).rightGrabbed = true
    ∧ (stringTick [⟨300, 300, 2, true⟩]
        ⟨⟨310, 300⟩, ⟨290, 300⟩, false, false, none, none⟩
        ⟨200, 300⟩ ⟨600, 300⟩).leftHandId = some 2
    ∧ (stringTick [⟨300, 300, 2, true⟩]
        ⟨⟨310, 300⟩, ⟨290, 300⟩, false, false, none, none⟩
        ⟨200, 300⟩ ⟨600, 300⟩).rightHandId = some 2 :=
  single_hand_controls_both ⟨300, 300, 2, true⟩
    ⟨⟨310, 300⟩, ⟨290, 300⟩, false, false, none, none⟩ ⟨200, 300⟩ ⟨600, 300⟩
    rfl (by rw [dist_horiz]; norm_num [GRAB_RADIUS])
    (by rw [dist_horiz]; norm_num [GRAB_RADIUS]) rfl rfl rfl rfl

/-- C2 (counterexample): the release decision looks at the hand closest to
the endpoint, not at the controlling hand. Hand `0` controls the grabbed
endpoint at `(100, 100)`, is observed, pinching and only 4 units away (well
within `GRAB_RADIUS + RELEASE_HYSTERESIS = 40`), yet the tick releases the
endpoint because the closest hand (hand `1`, 3 units away) is not pinching. -/
theorem controlling_hand_ok_but_released_cex :
    ([⟨103, 100, 1, false⟩, ⟨104, 100, 0, true⟩] : List HandTip).any
        (fun t => t.handId == 0) = true
    ∧ (⟨104, 100, 0, true⟩ : HandTip).isPinched = true
    ∧ dist ⟨104, 100⟩ ⟨100, 100⟩ ≤ GRAB_RADIUS + RELEASE_HYSTERESIS
    ∧ endpointTick [⟨103, 100, 1, false⟩, ⟨104, 100, 0, true⟩]
        ⟨100, 100⟩ true (some 0) = ⟨⟨100, 100⟩, false, none⟩ := by
  have h3 : dist ⟨(103 : ℝ), (100 : ℝ)⟩ ⟨100, 100⟩ = 3 := by
    rw [dist_horiz]; norm_num
  have h4 : dist ⟨(104 : ℝ), (100 : ℝ)⟩ ⟨100, 100⟩ = 4 := by
    rw [dist_horiz]; norm_num
  refine ⟨by simp, rfl, by rw [h4]; norm_num [GRAB_RADIUS, RELEASE_HYSTERESIS], ?_⟩
  have hfc : findClosest [⟨103, 100, 1, false⟩, ⟨104, 100, 0, true⟩] ⟨100, 100⟩
      = some (⟨103, 100, 1, false⟩, 3) := by
    simp [findClosest, h3, h4]
    norm_num
  simp [endpointTick, dropMissing, processEndpoint, hfc, GRAB_RADIUS]

/-- C2 (amended): a grabbed endpoint whose controlling hand is still observed
stays grabbed exactly when the hand *closest* to the endpoint (not
necessarily the controlling hand) is effectively pinching and within
`GRAB_RADIUS + RELEASE_HYSTERESIS` of the endpoint's previous position; the
endpoint then follows the closest hand's tip while `controllingHandId` stays
unchanged, and otherwise `grabbed` and `controllingHandId` are cleared. When
the controlling hand is not observed the state is cleared first and the tick
continues with the idle grab logic (which can immediately re-grab). -/
theorem grabbed_tick_behavior (tips : List HandTip) (e : Pt) (id : ℕ)
    (c : HandTip) (d : ℝ) (hc : findClosest tips e = some (c, d)) :
    (tips.any (fun t => t.handId == id) = true →
      endpointTick tips e true (some id) =
        if c.isPinched = true ∧ d ≤ GRAB_RADIUS + RELEASE_HYSTERESIS then
          ⟨⟨c.x, c.y⟩, true, some id⟩
        else ⟨e, false, none⟩)
    ∧ (tips.any (fun t => t.handId == id) = false →
      endpointTick tips e true (some id) = processEndpoint tips e false none) := by
  have h3040 : GRAB_RADIUS ≤ GRAB_RADIUS + RELEASE_HYSTERESIS := by
    norm_num [GRAB_RADIUS, RELEASE_HYSTERESIS]
  constructor
  · intro hobs
    simp only [endpointTick, dropMissing, hobs, if_true, processEndpoint, hc]
    by_cases hp : c.isPinched = true
    · by_cases hd40 : d ≤ GRAB_RADIUS + RELEASE_HYSTERESIS
      · by_cases hd30 : d ≤ GRAB_RADIUS
        · rw [if_pos ⟨hd30, hp⟩, if_pos ⟨hp, hd40⟩]
        · rw [if_neg (fun h => hd30 h.1),
            if_neg (by push_neg; exact ⟨by simp [hp], hd40⟩),
            if_pos ⟨hp, hd40⟩]
      · have hd30 : ¬ d ≤ GRAB_RADIUS := fun h => hd40 (le_trans h h3040)
        rw [if_neg (fun h => hd30 h.1),
          if_pos (Or.inr (not_le.mp hd40)), if_neg (fun h => hd40 h.2)]
    · rw [if_neg (fun h => hp h.2),
        if_pos (Or.inl (by simpa using hp)), if_neg (fun h => hp h.1)]
  · intro hobs
    simp only [endpointTick, dropMissing, hobs]
    simp

/-- C2 witness: a single observed pinching hand (id `0`, 20 units away,
inside the hysteresis zone) keeps the grabbed endpoint grabbed and moves it
to the tip. -/
theorem grabbed_tick_behavior_witness :
    endpointTick [⟨120, 100, 0, true⟩] ⟨100, 100⟩ true (some 0)
      = ⟨⟨120, 100⟩, true, some 0⟩ := by
  have h := (grabbed_tick_behavior [⟨120, 100, 0, true⟩] ⟨100, 100⟩ 0
      ⟨120, 100, 0, true⟩ (dist ⟨120, 100⟩ ⟨100, 100⟩)
      (findClosest_singleton _ _)).1 (by simp)
  rw [h, if_pos ⟨rfl, by rw [dist_horiz]; norm_num [GRAB_RADIUS, RELEASE_HYSTERESIS]⟩]

/-- C3 (counterexample): a hand that is effectively pinching and within
`GRAB_RADIUS` of an idle endpoint (hand `1`, 20 units away) does not grab it
when a non-pinching hand is closer (hand `0`, 10 units away): the code only
considers the globally closest hand, so the endpoint stays idle. -/
theorem pinching_hand_in_radius_not_grabbed_cex :
    (⟨120, 100, 1, true⟩ : HandTip).isPinched = true
    ∧ dist ⟨120, 100⟩ ⟨100, 100⟩ ≤ GRAB_RADIUS
    ∧ endpointTick [⟨110, 100, 0, false⟩, ⟨120, 100, 1, true⟩]
        ⟨100, 100⟩ false none = ⟨⟨100, 100⟩, false, none⟩ := by
  have h10 : dist ⟨(110 : ℝ), (100 : ℝ)⟩ ⟨100, 100⟩ = 10 := by
    rw [dist_horiz]; norm_num
  have h20 : dist ⟨(120 : ℝ), (100 : ℝ)⟩ ⟨100, 100⟩ = 20 := by
    rw [dist_horiz]; norm_num
  refine ⟨rfl, by rw [h20]; norm_num [GRAB_RADIUS], ?_⟩
  have hfc : findClosest [⟨110, 100, 0, false⟩, ⟨120, 100, 1, true⟩] ⟨100, 100⟩
      = some (⟨110, 100, 0, false⟩, 10) := by
    simp [findClosest, h10, h20]
    norm_num
  simp [endpointTick, dropMissing, processEndpoint, hfc]

/-- C3 (amended): an idle endpoint transitions to Grabbed exactly when the
hand closest to it among all observed hands is effectively pinching and
within `GRAB_RADIUS`; on that transition `controllingHandId` is set to that
hand and the position snaps to its tip. A pinching hand inside the radius is
ignored whenever some non-qualifying hand is closer. -/
theorem idle_grabs_iff_closest_qualifies (tips : List HandTip) (e : Pt)
    (c : HandTip) (d : ℝ) (hc : findClosest tips e = some (c, d)) :
    endpointTick tips e false none =
      if d ≤ GRAB_RADIUS ∧ c.isPinched = true then
        ⟨⟨c.x, c.y⟩, true, some c.handId⟩
      else ⟨e, false, none⟩ := by
  simp only [endpointTick, dropMissing, processEndpoint, hc]
  by_cases h : d ≤ GRAB_RADIUS ∧ c.isPinched = true
  · rw [if_pos h, if_pos h]
    simp
  · rw [if_neg h, if_neg h]
    simp

/-- C3 witness: the spec scenario — a pinching hand 20 units from the idle
left endpoint (inside `GRAB_RADIUS = 30`) grabs it and the endpoint snaps to
the tip. -/
theorem idle_grabs_iff_closest_qualifies_witness :
    endpointTick [⟨320, 300, 0, true⟩] ⟨300, 300⟩ false none
      = ⟨⟨320, 300⟩, true, some 0⟩ := by
  have h := idle_grabs_iff_closest_qualifies [⟨320, 300, 0, true⟩] ⟨300, 300⟩
    ⟨320, 300, 0, true⟩ (dist ⟨320, 300⟩ ⟨300, 300⟩) (findClosest_singleton _ _)
  rw [h, if_pos ⟨by rw [dist_horiz]; norm_num [GRAB_RADIUS], rfl⟩]

/-! ## Pinch debouncing (`StringCanvas.draw`, per-hand pinch state) -/

/-- The per-hand `pinchStates` record `{ state, releaseTime }`. -/
structure PinchData where
  state : Bool
  releaseTime : Option ℝ

/-- The per-hand pinch bookkeeping of `draw` for one tick: given the raw
(hysteresis-filtered) pinch signal, the stored record, whether this hand is
currently controlling a grabbed endpoint, and the current time, produce the
updated record and the effective pinch used for grabbing. On the frame the
pinch transitions to false the release time is recorded if not already
recorded; on any frame the raw pinch is true it is cleared; a controlling
hand with raw pinch false is still effectively pinched while less than
`PINCH_DEBOUNCE_TIME` has elapsed since the recorded release time. -/
def pinchStep (raw : Bool) (pd : PinchData) (isControlling : Bool) (now : ℝ) :
    PinchData × Bool :=
  let pd1 : PinchData :=
    if raw = false ∧ pd.state = true then
      { pd with releaseTime := if pd.releaseTime = none then some now else pd.releaseTime }
    else if raw = true then
      { pd with releaseTime := none }
    else pd
  let pd2 : PinchData := { pd1 with state := raw }
  let isPinched : Bool :=
    if raw = false ∧ isControlling = true then
      match pd2.releaseTime with
      | some rt => if now - rt < PINCH_DEBOUNCE_TIME then true else raw
      | none => raw
    else raw
  (pd2, isPinched)

/-- C7: for a hand whose raw pinch is false this tick, the effective pinch is
true exactly when the hand controls a grabbed endpoint and less than
`PINCH_DEBOUNCE_TIME` (150 ms) has elapsed since the recorded release time;
the release time is recorded on the pinching-to-not-pinching transition if
not already recorded, kept otherwise, and cleared whenever the raw pinch is
true. -/
theorem pinch_debounce_behavior (pd : PinchData) (ctrl : Bool) (now : ℝ) :
    ((pinchStep false pd ctrl now).2 = true ↔
      (ctrl = true ∧ ∃ rt, (pinchStep false pd ctrl now).1.releaseTime = some rt
        ∧ now - rt < PINCH_DEBOUNCE_TIME))
    ∧ (pd.state = true → pd.releaseTime = none →
        (pinchStep false pd ctrl now).1.releaseTime = some now)
    ∧ (∀ t, pd.releaseTime = some t →
        (pinchStep false pd ctrl now).1.releaseTime = some t)
    ∧ (pinchStep true pd ctrl now).1.releaseTime = none := by
  refine ⟨?_, ?_, ?_, by simp [pinchStep]⟩
  · cases ctrl with
    | false => simp [pinchStep]
    | true =>
      cases hst : pd.state with
      | false =>
        cases hrt : pd.releaseTime with
        | none => simp [pinchStep, hst, hrt]
        | some t =>
          by_cases hw : now - t < PINCH_DEBOUNCE_TIME <;>
            simp [pinchStep, hst, hrt, hw]
      | true =>
        cases hrt : pd.releaseTime with
        | none =>
          by_cases hw : now - now < PINCH_DEBOUNCE_TIME <;>
            simp [pinchStep, hst, hrt, hw]
        | some t =>
          by_cases hw : now - t < PINCH_DEBOUNCE_TIME <;>
            simp [pinchStep, hst, hrt, hw]
  · intro hst hrt
    simp [pinchStep, hst, hrt]
  · intro t hrt
    cases hst : pd.state <;> simp [pinchStep, hst, hrt]

/-- C7 witness: on the transition frame of a controlling hand the release
time is recorded as `now` and the effective pinch stays true (0 ms elapsed,
inside the 150 ms window). -/
theorem pinch_debounce_behavior_witness :
    (pinchStep false ⟨true, none⟩ true 1000).1.releaseTime = some 1000
    ∧ (pinchStep false ⟨true, none⟩ true 1000).2 = true := by
  have h := pinch_debounce_behavior ⟨true, none⟩ true 1000
  refine ⟨h.2.1 rfl rfl, ?_⟩
  exact h.1.mpr ⟨rfl, 1000, h.2.1 rfl rfl, by norm_num [PINCH_DEBOUNCE_TIME]⟩

/-! ## JavaScript numbers

The audio mapping code branches on `isNaN` / `isFinite`, so for it a real
number alone is not a faithful model. `JSNum` is a real number extended with
`Infinity`, `-Infinity` and `NaN`, with the IEEE-754 double arithmetic rules
the source relies on (sign of zero ignored; exact real arithmetic is used in
place of rounding, as everywhere in this development). -/

inductive JSNum where
  | num : ℝ → JSNum
  | inf : JSNum
  | ninf : JSNum
  | nan : JSNum

namespace JSNum

/-- JavaScript `+`. -/
def jadd : JSNum → JSNum → JSNum
  | num a, num b => num (a + b)
  | num _, inf => inf
  | num _, ninf => ninf
  | num _, nan => nan
  | inf, num _ => inf
  | inf, inf => inf
  | inf, ninf => nan
  | inf, nan => nan
  | ninf, num _ => ninf
  | ninf, inf => nan
  | ninf, ninf => ninf
  | ninf, nan => nan
  | nan, _ => nan

/-- JavaScript `*`. -/
def jmul : JSNum → JSNum → JSNum
  | num a, num b => num (a * b)
  | num a, inf => if a = 0 then nan else if 0 < a then inf else ninf
  | num a, ninf => if a = 0 then nan else if 0 < a then ninf else inf
  | num _, nan => nan
  | inf, num b => if b = 0 then nan else if 0 < b then inf else ninf
  | ninf, num b => if b = 0 then nan else if 0 < b then ninf else inf
  | inf, inf => inf
  | inf, ninf => ninf
  | ninf, inf => ninf
  | ninf, ninf => inf
  | inf, nan => nan
  | ninf, nan => nan
  | nan, _ => nan

/-- JavaScript `Math.min` (any `NaN` argument gives `NaN`). -/
def jmin : JSNum → JSNum → JSNum
  | nan, _ => nan
  | _, nan => nan
  | ninf, _ => ninf
  | num _, ninf => ninf
  | inf, ninf => ninf
  | inf, x => x
  | num a, inf => num a
  | num a, num b => num (min a b)

/-- JavaScript `Math.max` (any `NaN` argument gives `NaN`). -/
def jmax : JSNum → JSNum → JSNum
  | nan, _ => nan
  | _, nan => nan
  | inf, _ => inf
  | num _, inf => inf
  | ninf, inf => inf
  | ninf, x => x
  | num a, ninf => num a
  | num a, num b => num (max a b)

/-- JavaScript division of a finite number by a `JSNum`. -/
def jdivR (x : ℝ) : JSNum → JSNum
  | num y =>
    if y = 0 then (if x = 0 then nan else if 0 < x then inf else ninf)
    else num (x / y)
  | inf => num 0
  | ninf => num 0
  | nan => nan

/-- JavaScript `v <= 0` (false for `NaN`). -/
def leZero : JSNum → Prop
  | num x => x ≤ 0
  | ninf => True
  | inf => False
  | nan => False

end JSNum

/-! ## `computeTensionVelocity` (`lib/utils.ts`) -/

/-- Source: `computeTensionVelocity(currentTension, previousTension, deltaTime)`:
`if (deltaTime <= 0) return 0; return (currentTension - previousTension) /
deltaTime;`. The tensions are finite (they come from the clamped tension
computation); the time step is a raw `JSNum`. -/
def computeTensionVelocity (currentTension previousTension : ℝ)
    (deltaTime : JSNum) : JSNum :=
  if deltaTime.leZero then JSNum.num 0
  else JSNum.jdivR (currentTension - previousTension) deltaTime

/-- C5 (counterexample): a `NaN` time step is not caught by `deltaTime <= 0`
(which is false for `NaN`), so the division produces `NaN`, not the `0` the
claim requires for every non-finite `deltaTime`. -/
theorem tension_velocity_nan_dt_cex :
    computeTensionVelocity 1 0 JSNum.nan = JSNum.nan
    ∧ computeTensionVelocity 1 0 JSNum.nan ≠ JSNum.num 0 := by
  constructor
  · simp [computeTensionVelocity, JSNum.leZero, JSNum.jdivR]
  · simp [computeTensionVelocity, JSNum.leZero, JSNum.jdivR]

/-- C5 (amended): `tensionVelocity` is `0` when `deltaTime ≤ 0` (including
`-Infinity`) and equals `(tension - previousTension) / deltaTime` otherwise:
a finite positive quotient for finite positive `deltaTime`, `0` for
`deltaTime = Infinity`, and `NaN` (not `0`) for `deltaTime = NaN`. -/
theorem tension_velocity_cases (cur prev y : ℝ) (hy : 0 < y) :
    computeTensionVelocity cur prev (JSNum.num y) = JSNum.num ((cur - prev) / y)
    ∧ computeTensionVelocity cur prev (JSNum.num (-y)) = JSNum.num 0
    ∧ computeTensionVelocity cur prev (JSNum.num 0) = JSNum.num 0
    ∧ computeTensionVelocity cur prev JSNum.ninf = JSNum.num 0
    ∧ computeTensionVelocity cur prev JSNum.inf = JSNum.num 0
    ∧ computeTensionVelocity cur prev JSNum.nan = JSNum.nan := by
  refine ⟨?_, ?_, ?_, ?_, ?_, ?_⟩
  · simp [computeTensionVelocity, JSNum.leZero, JSNum.jdivR, not_le.mpr hy, hy.ne']
  · simp [computeTensionVelocity, JSNum.leZero, show -y ≤ 0 by linarith]
  · simp [computeTensionVelocity, JSNum.leZero]
  · simp [computeTensionVelocity, JSNum.leZero]
  · simp [computeTensionVelocity, JSNum.leZero, JSNum.jdivR]
  · simp [computeTensionVelocity, JSNum.leZero, JSNum.jdivR]

/-- C5 witness: `deltaTime = 1/60 s` with a tension step of `0.4` gives a
finite quotient. -/
theorem tension_velocity_cases_witness :
    computeTensionVelocity 0.5 0.1 (JSNum.num (1 / 60))
      = JSNum.num ((0.5 - 0.1) / (1 / 60)) :=
  (tension_velocity_cases 0.5 0.1 (1 / 60) (by norm_num)).1

/-! ## Audio configuration and parameter mapping (`lib/audioConfig`)

Only the parts of `AudioConfig` read by `updateAudio` are modelled: the
`mappings` ranges, the `curves` exponents and `rampTime`. The synth/filter
construction options concern the external audio backend. -/

/-- A `{min, max}` mapping range. -/
structure MapRange where
  min : ℝ
  max : ℝ

/-- The `mappings` block of `AudioConfig`. -/
structure Mappings where
  frequency : MapRange
  filterCutoff : MapRange
  volume : MapRange
  pan : MapRange
  modulationDepth : MapRange
  distortion : MapRange
  reverb : MapRange
  pluckThreshold : ℝ

/-- The `curves` block of `AudioConfig` (power-curve exponents). -/
structure Curves where
  volume : ℝ
  frequency : ℝ
  filterCutoff : ℝ
  distortion : ℝ
  reverb : ℝ

/-- The mapping-relevant part of `AudioConfig`. -/
structure AudioConfig where
  mappings : Mappings
  curves : Curves
  rampTime : ℝ

/-- The default `audioConfig` exported by `lib/audioConfig`. -/
def audioConfig : AudioConfig :=
  { mappings :=
      { frequency := ⟨220, 880⟩
        filterCutoff := ⟨200, 8000⟩
        volume := ⟨-30, 0⟩
        pan := ⟨-1, 1⟩
        modulationDepth := ⟨0, 10⟩
        distortion := ⟨0, 0.8⟩
        reverb := ⟨0, 0.5⟩
        pluckThreshold := 0.1 }
    curves := ⟨0.8, 1.0, 2.0, 1.5, 1.0⟩
    rampTime := 0.05 }

/-- JavaScript `Math.pow` for a nonnegative base (the only way it is called
here: `applyCurve` clamps its base into `[0, 1]`): `pow(0, y)` is `1` at
`y = 0`, `Infinity` for `y < 0` and `0` for `y > 0`; a positive base gives
the real power. (A negative base is never passed; that branch is marked
`NaN` as for JS non-integer exponents.) -/
def jsPow (x y : ℝ) : JSNum :=
  if x = 0 then (if y = 0 then JSNum.num 1 else if y < 0 then JSNum.inf else JSNum.num 0)
  else if x < 0 then JSNum.nan
  else JSNum.num (x ^ y)

/-- Source: `applyCurve(value, curve)` from `lib/audioConfig`: clamp to `[0, 1]`,
identity at exponent `1.0`, else `Math.pow(clamped, curve)`. -/
def applyCurve (value curve : ℝ) : JSNum :=
  let clamped := max 0 (min 1 value)
  if curve = 1.0 then JSNum.num clamped
  else jsPow clamped curve

/-- Source: `safeCanvasWidth` in `updateAudio`: `1` when NaN, non-finite or `≤ 0`,
else `Math.max(1, canvasWidth)`. -/
def safeCanvasWidth : JSNum → ℝ
  | JSNum.num w => if w ≤ 0 then 1 else max 1 w
  | _ => 1

/-- Source: `safeMidpointX` in `updateAudio`: `0` when NaN or non-finite. -/
def safeMidpointX : JSNum → ℝ
  | JSNum.num x => x
  | _ => 0

/-- Source: `normalizedX = Math.max(0, Math.min(1, safeMidpointX / safeCanvasWidth))`. -/
def normalizedX (midpointX canvasWidth : JSNum) : ℝ :=
  max 0 (min 1 (safeMidpointX midpointX / safeCanvasWidth canvasWidth))

/-- Source: `baseFrequencyMax = min + (max - min) * 0.75` (the lower 75 % of the
configured range). -/
def baseFrequencyMax (cfg : AudioConfig) : ℝ :=
  cfg.mappings.frequency.min
    + (cfg.mappings.frequency.max - cfg.mappings.frequency.min) * 0.75

/-- Source: `baseFrequency = baseFrequencyMin + normalizedX * (baseFrequencyMax -
baseFrequencyMin)`. -/
def baseFrequency (midpointX canvasWidth : JSNum) (cfg : AudioConfig) : ℝ :=
  cfg.mappings.frequency.min
    + normalizedX midpointX canvasWidth
      * (baseFrequencyMax cfg - cfg.mappings.frequency.min)

/-- Source: `tensionFrequencyRange = mappings.frequency.max - baseFrequencyMax`. -/
def tensionFrequencyRange (cfg : AudioConfig) : ℝ :=
  cfg.mappings.frequency.max - baseFrequencyMax cfg

/-- Source: `frequency = baseFrequency + tensionForFrequency * tensionFrequencyRange`
(JS arithmetic: the curved tension may be `Infinity`). -/
def rawFrequency (tension : ℝ) (midpointX canvasWidth : JSNum)
    (cfg : AudioConfig) : JSNum :=
  JSNum.jadd (JSNum.num (baseFrequency midpointX canvasWidth cfg))
    (JSNum.jmul (applyCurve tension cfg.curves.frequency)
      (JSNum.num (tensionFrequencyRange cfg)))

/-- Source: `minFrequency = Math.max(20, mappings.frequency.min)`. -/
def minFrequency (cfg : AudioConfig) : ℝ := max 20 cfg.mappings.frequency.min

/-- Source: `maxFrequency = Math.min(20000, mappings.frequency.max)`. -/
def maxFrequency (cfg : AudioConfig) : ℝ := min 20000 cfg.mappings.frequency.max

/-- Source: `frequency = Math.max(minFrequency, Math.min(maxFrequency, frequency))`
in JS `Math.max`/`Math.min` semantics (`NaN` propagates). -/
def clampedFrequency (tension : ℝ) (midpointX canvasWidth : JSNum)
    (cfg : AudioConfig) : JSNum :=
  JSNum.jmax (JSNum.num (minFrequency cfg))
    (JSNum.jmin (JSNum.num (maxFrequency cfg))
      (rawFrequency tension midpointX canvasWidth cfg))

/-- The defensive fallback `if (isNaN(frequency) || !isFinite(frequency) ||
frequency <= 0) frequency = mappings.frequency.min`. -/
def fallbackFrequency (tension : ℝ) (midpointX canvasWidth : JSNum)
    (cfg : AudioConfig) : ℝ :=
  match clampedFrequency tension midpointX canvasWidth cfg with
  | JSNum.num x => if x ≤ 0 then cfg.mappings.frequency.min else x
  | _ => cfg.mappings.frequency.min

/-- The frequency actually handed to the synth: when positive it is ramped to
`Math.max(20, Math.min(20000, frequency))`; otherwise the raw configured
minimum is assigned directly (the `else` branch of `updateAudio`). -/
def appliedFrequency (tension : ℝ) (midpointX canvasWidth : JSNum)
    (cfg : AudioConfig) : ℝ :=
  let f := fallbackFrequency tension midpointX canvasWidth cfg
  if 0 < f then max 20 (min 20000 f) else cfg.mappings.frequency.min

/-- Source: `volume = mappings.volume.min + tensionForVolume * (max - min)`. -/
def volumeOut (tension : ℝ) (cfg : AudioConfig) : JSNum :=
  JSNum.jadd (JSNum.num cfg.mappings.volume.min)
    (JSNum.jmul (applyCurve tension cfg.curves.volume)
      (JSNum.num (cfg.mappings.volume.max - cfg.mappings.volume.min)))

/-- Source: `filterCutoff`, mapped from tension then clamped to `[20, 20000]`. -/
def filterCutoffOut (tension : ℝ) (cfg : AudioConfig) : JSNum :=
  JSNum.jmax (JSNum.num 20) (JSNum.jmin (JSNum.num 20000)
    (JSNum.jadd (JSNum.num cfg.mappings.filterCutoff.min)
      (JSNum.jmul (applyCurve tension cfg.curves.filterCutoff)
        (JSNum.num (cfg.mappings.filterCutoff.max - cfg.mappings.filterCutoff.min)))))

/-- Source: `distortionAmount = mappings.distortion.min + tensionForDistortion *
(max - min)`. -/
def distortionOut (tension : ℝ) (cfg : AudioConfig) : JSNum :=
  JSNum.jadd (JSNum.num cfg.mappings.distortion.min)
    (JSNum.jmul (applyCurve tension cfg.curves.distortion)
      (JSNum.num (cfg.mappings.distortion.max - cfg.mappings.distortion.min)))

/-- Source: `reverbWet = mappings.reverb.min + tensionForReverb * (max - min)`. -/
def reverbOut (tension : ℝ) (cfg : AudioConfig) : JSNum :=
  JSNum.jadd (JSNum.num cfg.mappings.reverb.min)
    (JSNum.jmul (applyCurve tension cfg.curves.reverb)
      (JSNum.num (cfg.mappings.reverb.max - cfg.mappings.reverb.min)))

/-- Source: `modulationDepth`, mapped from `|angle|` and clamped to `[0, 50]`. -/
def modulationDepthOut (angle : ℝ) (cfg : AudioConfig) : ℝ :=
  max 0 (min 50 (cfg.mappings.modulationDepth.min
    + |angle| * (cfg.mappings.modulationDepth.max - cfg.mappings.modulationDepth.min)))

lemma applyCurve_num_or_inf (v e : ℝ) :
    (∃ c, applyCurve v e = JSNum.num c) ∨ applyCurve v e = JSNum.inf := by
  have hc0 : (0 : ℝ) ≤ max 0 (min 1 v) := le_max_left _ _
  simp only [applyCurve, jsPow]
  split_ifs with h1 h2 h3 h4 h5
  · exact Or.inl ⟨_, rfl⟩
  · exact Or.inl ⟨_, rfl⟩
  · exact Or.inr rfl
  · exact Or.inl ⟨_, rfl⟩
  · exact absurd h5 (not_lt.mpr hc0)
  · exact Or.inl ⟨_, rfl⟩

lemma clampedFrequency_ge_or_nan (t : ℝ) (mx w : JSNum) (cfg : AudioConfig) :
    (∃ x, clampedFrequency t mx w cfg = JSNum.num x ∧ minFrequency cfg ≤ x)
    ∨ clampedFrequency t mx w cfg = JSNum.nan := by
  rcases applyCurve_num_or_inf t cfg.curves.frequency with ⟨c, hc⟩ | hinf
  · left
    exact ⟨max (minFrequency cfg) (min (maxFrequency cfg)
        (baseFrequency mx w cfg + c * tensionFrequencyRange cfg)),
      by simp [clampedFrequency, rawFrequency, hc, JSNum.jadd, JSNum.jmul,
        JSNum.jmin, JSNum.jmax],
      le_max_left _ _⟩
  · rcases lt_trichotomy (tensionFrequencyRange cfg) 0 with hR | hR | hR
    · left
      refine ⟨minFrequency cfg, ?_, le_refl _⟩
      simp [clampedFrequency, rawFrequency, hinf, JSNum.jmul, hR.ne,
        not_lt.mpr (le_of_lt hR), JSNum.jadd, JSNum.jmin, JSNum.jmax]
    · right
      simp [clampedFrequency, rawFrequency, hinf, JSNum.jmul, hR,
        JSNum.jadd, JSNum.jmin, JSNum.jmax]
    · left
      refine ⟨max (minFrequency cfg) (maxFrequency cfg), ?_, le_max_left _ _⟩
      simp [clampedFrequency, rawFrequency, hinf, JSNum.jmul, hR.ne',
        hR, JSNum.jadd, JSNum.jmin, JSNum.jmax]

/-- Concrete configuration: the default `audioConfig` with the frequency
curve exponent set to `-1` (the config modal allows arbitrary exponents). -/
def cfgNegCurve : AudioConfig :=
  { audioConfig with curves := { audioConfig.curves with frequency := -1 } }

/-- Concrete configuration: `cfgNegCurve` with a degenerate negative
frequency range `min = max = -100`. -/
def cfgNegRange : AudioConfig :=
  { cfgNegCurve with mappings := { cfgNegCurve.mappings with frequency := ⟨-100, -100⟩ } }

/-- C4 (counterexample): with curve exponent `-1` and tension `0` the curved
tension is `Infinity` — a non-finite intermediate — yet the produced
frequency is the configured maximum `880`, not the configured minimum `220`
(the clamp absorbs the infinity before the fallback can see it). And with the
degenerate range `min = max = -100` the `Infinity * 0 = NaN` intermediate
makes the engine apply the raw configured minimum `-100`, which lies outside
20 Hz–20 kHz, refuting the range clause as well. -/
theorem nonfinite_frequency_not_replaced_cex :
    applyCurve 0 cfgNegCurve.curves.frequency = JSNum.inf
    ∧ appliedFrequency 0 (JSNum.num 0) (JSNum.num 800) cfgNegCurve = 880
    ∧ cfgNegCurve.mappings.frequency.min = 220
    ∧ appliedFrequency 0 (JSNum.num 0) (JSNum.num 800) cfgNegRange = -100
    ∧ ¬ (20 : ℝ) ≤ -100 := by
  have hcurve : applyCurve 0 (-1 : ℝ) = JSNum.inf := by
    norm_num [applyCurve, jsPow]
  refine ⟨by rw [show cfgNegCurve.curves.frequency = -1 from rfl]; exact hcurve,
    ?_, rfl, ?_, by norm_num⟩
  · norm_num [appliedFrequency, fallbackFrequency, clampedFrequency,
      rawFrequency, baseFrequency, normalizedX, safeMidpointX, safeCanvasWidth,
      baseFrequencyMax, tensionFrequencyRange, minFrequency, maxFrequency,
      hcurve, JSNum.jadd, JSNum.jmul, JSNum.jmin, JSNum.jmax,
      cfgNegCurve, audioConfig]
  · norm_num [appliedFrequency, fallbackFrequency, clampedFrequency,
      rawFrequency, baseFrequency, normalizedX, safeMidpointX, safeCanvasWidth,
      baseFrequencyMax, tensionFrequencyRange, minFrequency, maxFrequency,
      hcurve, JSNum.jadd, JSNum.jmul, JSNum.jmin, JSNum.jmax,
      cfgNegRange, cfgNegCurve, audioConfig]

/-- C4 (amended): whenever the configured minimum frequency is positive the
frequency handed to the synth lies within 20 Hz–20 kHz for every tension,
midpoint and canvas width (including NaN/Infinity inputs); and precisely a
`NaN` clamp result is replaced by the configured minimum frequency (an
infinite intermediate is instead absorbed by the min/max clamp). -/
theorem frequency_clamped_into_audible_range (t : ℝ) (mx w : JSNum)
    (cfg : AudioConfig) (hmin : 0 < cfg.mappings.frequency.min) :
    (20 ≤ appliedFrequency t mx w cfg ∧ appliedFrequency t mx w cfg ≤ 20000)
    ∧ (clampedFrequency t mx w cfg = JSNum.nan →
        fallbackFrequency t mx w cfg = cfg.mappings.frequency.min) := by
  constructor
  · rcases clampedFrequency_ge_or_nan t mx w cfg with ⟨x, hx, hge⟩ | hnan
    · have h20 : (20 : ℝ) ≤ x := by
        refine le_trans ?_ hge
        simp only [minFrequency]
        exact le_max_left _ _
      have hxpos : (0 : ℝ) < x := lt_of_lt_of_le (by norm_num) h20
      have hf : fallbackFrequency t mx w cfg = x := by
        simp [fallbackFrequency, hx, not_le.mpr hxpos]
      simp only [appliedFrequency, hf, if_pos hxpos]
      exact ⟨le_max_left _ _, max_le (by norm_num) (min_le_left _ _)⟩
    · have hf : fallbackFrequency t mx w cfg = cfg.mappings.frequency.min := by
        simp [fallbackFrequency, hnan]
      simp only [appliedFrequency, hf, if_pos hmin]
      exact ⟨le_max_left _ _, max_le (by norm_num) (min_le_left _ _)⟩
  · intro hnan
    simp [fallbackFrequency, hnan]

/-- C4 witness: the amended theorem at the default configuration,
tension `0.5`, midpoint `400` on an 800-unit canvas. -/
theorem frequency_clamped_into_audible_range_witness :
    (20 ≤ appliedFrequency 0.5 (JSNum.num 400) (JSNum.num 800) audioConfig
      ∧ appliedFrequency 0.5 (JSNum.num 400) (JSNum.num 800) audioConfig ≤ 20000)
    ∧ (clampedFrequency 0.5 (JSNum.num 400) (JSNum.num 800) audioConfig = JSNum.nan →
        fallbackFrequency 0.5 (JSNum.num 400) (JSNum.num 800) audioConfig
          = audioConfig.mappings.frequency.min) :=
  frequency_clamped_into_audible_range 0.5 (JSNum.num 400) (JSNum.num 800)
    audioConfig (by norm_num [audioConfig])

lemma applyCurve_mem_unit (v e : ℝ) (he : 0 ≤ e) :
    ∃ c, applyCurve v e = JSNum.num c ∧ 0 ≤ c ∧ c ≤ 1 := by
  have h0 : (0 : ℝ) ≤ max 0 (min 1 v) := le_max_left _ _
  have h1 : max 0 (min 1 v) ≤ 1 := max_le (by norm_num) (min_le_left _ _)
  simp only [applyCurve, jsPow]
  split_ifs with hc1 hc2 hc3 hc4 hc5
  · exact ⟨_, rfl, h0, h1⟩
  · exact ⟨1, rfl, by norm_num, le_refl 1⟩
  · exact absurd hc4 (not_lt.mpr he)
  · exact ⟨0, rfl, le_refl 0, by norm_num⟩
  · exact absurd hc5 (not_lt.mpr h0)
  · exact ⟨_, rfl, Real.rpow_nonneg h0 e, Real.rpow_le_one h0 h1 he⟩

lemma mapped_in_range (t e lo hi : ℝ) (he : 0 ≤ e) (hlohi : lo ≤ hi) :
    ∃ x, JSNum.jadd (JSNum.num lo)
        (JSNum.jmul (applyCurve t e) (JSNum.num (hi - lo))) = JSNum.num x
      ∧ lo ≤ x ∧ x ≤ hi := by
  obtain ⟨c, hc, hc0, hc1⟩ := applyCurve_mem_unit t e he
  refine ⟨lo + c * (hi - lo), by simp [hc, JSNum.jmul, JSNum.jadd], ?_, ?_⟩
  · nlinarith
  · nlinarith

/-- C8: for every tension input and curve exponents in `[0.1, 5]`, each
output parameter computed as `min + clamp01(tension)^exponent * (max - min)`
(volume, distortion amount, reverb wet) is a finite number within its
configured `[min, max]`, inclusive, provided `min ≤ max`. -/
theorem mapped_params_within_range (t : ℝ) (cfg : AudioConfig)
    (hcv : 0.1 ≤ cfg.curves.volume) (hcv5 : cfg.curves.volume ≤ 5)
    (hcd : 0.1 ≤ cfg.curves.distortion) (hcd5 : cfg.curves.distortion ≤ 5)
    (hcr : 0.1 ≤ cfg.curves.reverb) (hcr5 : cfg.curves.reverb ≤ 5)
    (hmv : cfg.mappings.volume.min ≤ cfg.mappings.volume.max)
    (hmd : cfg.mappings.distortion.min ≤ cfg.mappings.distortion.max)
    (hmr : cfg.mappings.reverb.min ≤ cfg.mappings.reverb.max) :
    (∃ x, volumeOut t cfg = JSNum.num x
      ∧ cfg.mappings.volume.min ≤ x ∧ x ≤ cfg.mappings.volume.max)
    ∧ (∃ x, distortionOut t cfg = JSNum.num x
      ∧ cfg.mappings.distortion.min ≤ x ∧ x ≤ cfg.mappings.distortion.max)
    ∧ (∃ x, reverbOut t cfg = JSNum.num x
      ∧ cfg.mappings.reverb.min ≤ x ∧ x ≤ cfg.mappings.reverb.max) := by
  refine ⟨?_, ?_, ?_⟩
  · simpa [volumeOut] using
      mapped_in_range t cfg.curves.volume cfg.mappings.volume.min
        cfg.mappings.volume.max (le_trans (by norm_num) hcv) hmv
  · simpa [distortionOut] using
      mapped_in_range t cfg.curves.distortion cfg.mappings.distortion.min
        cfg.mappings.distortion.max (le_trans (by norm_num) hcd) hmd
  · simpa [reverbOut] using
      mapped_in_range t cfg.curves.reverb cfg.mappings.reverb.min
        cfg.mappings.reverb.max (le_trans (by norm_num) hcr) hmr

/-- C8 witness: the default configuration (curve exponents 0.8, 1.5, 1.0 in
`[0.1, 5]`) at tension `0.7`. -/
theorem mapped_params_within_range_witness :
    (∃ x, volumeOut 0.7 audioConfig = JSNum.num x
      ∧ audioConfig.mappings.volume.min ≤ x ∧ x ≤ audioConfig.mappings.volume.max)
    ∧ (∃ x, distortionOut 0.7 audioConfig = JSNum.num x
      ∧ audioConfig.mappings.distortion.min ≤ x
        ∧ x ≤ audioConfig.mappings.distortion.max)
    ∧ (∃ x, reverbOut 0.7 audioConfig = JSNum.num x
      ∧ audioConfig.mappings.reverb.min ≤ x ∧ x ≤ audioConfig.mappings.reverb.max) :=
  mapped_params_within_range 0.7 audioConfig
    (by norm_num [audioConfig]) (by norm_num [audioConfig])
    (by norm_num [audioConfig]) (by norm_num [audioConfig])
    (by norm_num [audioConfig]) (by norm_num [audioConfig])
    (by norm_num [audioConfig]) (by norm_num [audioConfig])
    (by norm_num [audioConfig])

/-! ## The audio-gating tick logic of `Home` -/

/-- The synth actions taken by one pass of the audio-update effect in
`Home`. -/
structure AudioStepResult where
  attack : Bool
  retrigger : Bool
  release : Bool
  playingAfter : Bool

/-- The note-gating logic of `Home` (lines around the `updateAudio` call):
`isGrabbed = leftGrabbed || rightGrabbed`; `isPluck = |tensionVelocity| >
pluckThreshold`; if `tension > 0.01 && isGrabbed` the note is attacked when
not already playing and retriggered when `isPluck && tensionVelocity > 0`,
leaving the playing flag set; otherwise a playing note is released and the
flag cleared. -/
def homeAudioStep (tension tensionVelocity pluckThreshold : ℝ)
    (leftGrabbed rightGrabbed isPlaying : Bool) : AudioStepResult :=
  let isGrabbed := leftGrabbed || rightGrabbed
  if tension > 0.01 ∧ isGrabbed = true then
    { attack := !isPlaying
      retrigger :=
        if |tensionVelocity| > pluckThreshold ∧ tensionVelocity > 0 then true else false
      release := false
      playingAfter := true }
  else
    { attack := false
      retrigger := false
      release := isPlaying
      playingAfter := false }

/-- C6 (counterexample): the pluck check sits inside the note gate, so the
claimed condition alone does not raise a pluck. Tension rising from `0` to
`0.01` in a 16 ms tick (a reachable trace: the endpoint grabbed and pulled
from rest) gives `tensionVelocity = 0.625`, which exceeds the default
threshold `0.1` and is positive, yet `tension > 0.01` is false, so the tick
takes the release branch and no pluck is raised. -/
theorem pluck_condition_met_but_not_raised_cex :
    computeTensionVelocity 0.01 0 (JSNum.num 0.016) = JSNum.num 0.625
    ∧ |(0.625 : ℝ)| > audioConfig.mappings.pluckThreshold
    ∧ (0.625 : ℝ) > 0
    ∧ (homeAudioStep 0.01 0.625 audioConfig.mappings.pluckThreshold
        true false true).retrigger = false := by
  refine ⟨?_, ?_, by norm_num, ?_⟩
  · simp only [computeTensionVelocity, JSNum.leZero, JSNum.jdivR]
    rw [if_neg (by norm_num : ¬ (0.016 : ℝ) ≤ 0),
      if_neg (by norm_num : ¬ (0.016 : ℝ) = 0)]
    norm_num
  · have hthr : audioConfig.mappings.pluckThreshold = 0.1 := rfl
    rw [hthr, abs_of_pos (by norm_num)]
    norm_num
  · simp only [homeAudioStep]
    rw [if_neg (fun h => by norm_num at h : ¬ ((0.01 : ℝ) > 0.01 ∧ (true || false) = true))]

/-- C6 (amended): the synth pluck retrigger fires exactly when the note gate
holds (`tension > 0.01` and at least one endpoint grabbed) and
`|tensionVelocity| > pluckThreshold` and `tensionVelocity > 0` (a rapid
increase, never a rapid release); and the spec scenario: a tension jump from
`0.1` to `0.5` with `deltaTime = 1/60 s` yields `tensionVelocity = 24`,
which with a grabbed endpoint and the default threshold `0.1` raises a
pluck. -/
theorem pluck_retrigger_exact (t v thr : ℝ) (lg rg playing : Bool) :
    ((homeAudioStep t v thr lg rg playing).retrigger = true ↔
      (t > 0.01 ∧ (lg = true ∨ rg = true) ∧ |v| > thr ∧ v > 0))
    ∧ computeTensionVelocity 0.5 0.1 (JSNum.num (1 / 60)) = JSNum.num 24
    ∧ (homeAudioStep 0.5 24 audioConfig.mappings.pluckThreshold
        true false true).retrigger = true := by
  have hbo : ((lg || rg) = true) ↔ (lg = true ∨ rg = true) := by
    cases lg <;> cases rg <;> simp
  refine ⟨?_, ?_, ?_⟩
  · simp only [homeAudioStep]
    by_cases hcond : t > 0.01 ∧ (lg || rg) = true
    · rw [if_pos hcond]
      by_cases hp : |v| > thr ∧ v > 0
      · rw [if_pos hp]
        exact iff_of_true rfl ⟨hcond.1, hbo.mp hcond.2, hp.1, hp.2⟩
      · rw [if_neg hp]
        exact iff_of_false (by simp) (fun h => hp ⟨h.2.2.1, h.2.2.2⟩)
    · rw [if_neg hcond]
      exact iff_of_false (by simp) (fun h => hcond ⟨h.1, hbo.mpr h.2.1⟩)
  · simp only [computeTensionVelocity, JSNum.leZero, JSNum.jdivR]
    rw [if_neg (by norm_num : ¬ (1 / 60 : ℝ) ≤ 0),
      if_neg (by norm_num : ¬ (1 / 60 : ℝ) = 0)]
    norm_num
  · have hthr : audioConfig.mappings.pluckThreshold = 0.1 := rfl
    simp only [homeAudioStep, hthr]
    rw [if_pos (by norm_num : (0.5 : ℝ) > 0.01 ∧ (true || false) = true),
      if_pos ⟨by rw [abs_of_pos (by norm_num)]; norm_num, by norm_num⟩]

/-- C10: the synth note is attacked only when `tension > 0.01` and at least
one endpoint is grabbed; whenever that gate fails while a note is playing the
note is released that tick; and the playing flag never survives a tick on
which the gate fails, so no note is sustained with both endpoints idle or
tension at most `0.01`. -/
theorem note_gated_by_tension_and_grab (t v thr : ℝ) (lg rg playing : Bool) :
    ((homeAudioStep t v thr lg rg playing).attack = true →
      (t > 0.01 ∧ (lg = true ∨ rg = true)))
    ∧ (¬ (t > 0.01 ∧ (lg = true ∨ rg = true)) → playing = true →
        (homeAudioStep t v thr lg rg playing).release = true)
    ∧ ((homeAudioStep t v thr lg rg playing).playingAfter = true →
      (t > 0.01 ∧ (lg = true ∨ rg = true))) := by
  have hbo : ((lg || rg) = true) ↔ (lg = true ∨ rg = true) := by
    cases lg <;> cases rg <;> simp
  by_cases hcond : t > 0.01 ∧ (lg || rg) = true
  · refine ⟨fun _ => ⟨hcond.1, hbo.mp hcond.2⟩, ?_, fun _ => ⟨hcond.1, hbo.mp hcond.2⟩⟩
    intro hneg
    exact absurd ⟨hcond.1, hbo.mp hcond.2⟩ hneg
  · have hres : homeAudioStep t v thr lg rg playing =
        { attack := false, retrigger := false, release := playing, playingAfter := false } := by
      simp only [homeAudioStep, if_neg hcond]
    rw [hres]
    exact ⟨fun h => absurd h (by simp), fun _ hp => hp, fun h => absurd h (by simp)⟩

/-- C10 witness: with tension `0.005` (at most `0.01`) and no endpoint
grabbed, a playing note is released this tick. -/
theorem note_gated_by_tension_and_grab_witness :
    (homeAudioStep 0.005 0 0.1 false false true).release = true :=
  (note_gated_by_tension_and_grab 0.005 0 0.1 false false true).2.1
    (fun h => absurd h.1 (by norm_num)) rfl

end Music
